import Mathlib

/-!
Verification of the HyurimBot scraping and recommendation code.

The Python sources are embedded shallowly: string-processing routines act on
`List Char` (the character data of a Python `str`), numeric code on `Nat`/`Int`,
float arithmetic on `ℚ` (exact; the float expressions involved round identically
over the value ranges the program handles), the SQLite table as a `List` of row
structures, and code that may raise as `Except`/`Option` values.
-/

namespace HyurimBot

/-! ### Generic character-list helpers (Python string primitives) -/

/-- Python `str.startswith` on character lists: `startsWithChars p l` holds when
`p` is an initial segment of `l`. -/
def startsWithChars : List Char → List Char → Bool
  | [], _ => true
  | _ :: _, [] => false
  | a :: as, b :: bs => a == b && startsWithChars as bs

/-- Python's substring test `p in l` on character lists. -/
def containsChars (p : List Char) : List Char → Bool
  | [] => p.isEmpty
  | b :: bs => startsWithChars p (b :: bs) || containsChars p bs

/-- Python `str.strip()`: drop whitespace from both ends. -/
def pyStrip (l : List Char) : List Char :=
  ((l.dropWhile Char.isWhitespace).reverse.dropWhile Char.isWhitespace).reverse

/-- Numeric value of a digit-character run, as produced by Python `int` on a
digit string. -/
def digitsToNat (l : List Char) : ℕ :=
  l.foldl (fun acc c => 10 * acc + (c.toNat - '0'.toNat)) 0

theorem startsWithChars_iff (p l : List Char) :
    startsWithChars p l = true ↔ ∃ t, p ++ t = l := by
  induction p generalizing l with
  | nil => simp [startsWithChars]
  | cons a as ih =>
    cases l with
    | nil => simp [startsWithChars]
    | cons b bs =>
      simp only [startsWithChars, Bool.and_eq_true, beq_iff_eq, ih]
      constructor
      · rintro ⟨rfl, t, rfl⟩; exact ⟨t, rfl⟩
      · rintro ⟨t, h⟩
        injection h with h1 h2
        exact ⟨h1, t, h2⟩

theorem containsChars_iff (p l : List Char) :
    containsChars p l = true ↔ ∃ s t, s ++ p ++ t = l := by
  induction l with
  | nil =>
    simp only [containsChars, List.isEmpty_iff]
    constructor
    · rintro rfl; exact ⟨[], [], rfl⟩
    · rintro ⟨s, t, h⟩
      rcases List.append_eq_nil.mp h with ⟨h1, h2⟩
      exact (List.append_eq_nil.mp h1).2
  | cons b bs ih =>
    simp only [containsChars, Bool.or_eq_true, startsWithChars_iff, ih]
    constructor
    · rintro (⟨t, h⟩ | ⟨s, t, h⟩)
      · exact ⟨[], t, by simpa using h⟩
      · exact ⟨b :: s, t, by simp [h]⟩
    · rintro ⟨s, t, h⟩
      cases s with
      | nil => exact Or.inl ⟨t, by simpa using h⟩
      | cons c cs =>
        injection h with h1 h2
        exact Or.inr ⟨cs, t, h2⟩

/-! ### Facility matcher (`_extract_popup_details`, admin_dashboard/app.py)

The matcher walks the scraped table rows in order.  A row is a list of cell
texts; rows with fewer than two cells are skipped, otherwise the second cell
(the facility name) is compared with the crawl target after normalization
(`.strip().replace(" ", "").replace(".", "")`). -/

/-- Normalization applied by `_extract_popup_details` to both names:
`name.strip().replace(" ", "").replace(".", "")`. -/
def normName (s : String) : List Char :=
  (pyStrip s.data).filter (fun c => !(c == ' ' || c == '.'))

/-- Bidirectional-containment test
`target_clean in facility_clean or facility_clean in target_clean`. -/
def nameMatch (target candidate : String) : Bool :=
  containsChars (normName target) (normName candidate) ||
    containsChars (normName candidate) (normName target)

/-- Acceptance test for one scraped row: at least two cells, and the second
cell's text matches the target name. -/
def rowAccepts (target : String) (row : List String) : Bool :=
  match row with
  | _ :: cname :: _ => nameMatch target cname
  | _ => false

/-- Loop of `_extract_popup_details` over the scraped rows: the first accepted
row is returned (`break`), `none` when no row is accepted. -/
def findFacilityRow (target : String) : List (List String) → Option (List String)
  | [] => none
  | row :: rest =>
    if rowAccepts target row then some row else findFacilityRow target rest

/-- C1: the facility matcher accepts a row iff the normalized target is a
substring of the normalized candidate name or vice versa, returns the first
accepted row in document order, reports not-found (`none`) when no row is
accepted, and in particular "101호. 연산홍" matches "101호.연산홍" but not
"102호. 백일홍". -/
theorem facility_matcher_spec :
    (∀ target rows, findFacilityRow target rows = rows.find? (rowAccepts target))
    ∧ (∀ t c, nameMatch t c = true ↔
        ((∃ s u, s ++ normName t ++ u = normName c)
          ∨ (∃ s u, s ++ normName c ++ u = normName t)))
    ∧ nameMatch "101호. 연산홍" "101호.연산홍" = true
    ∧ nameMatch "101호. 연산홍" "102호. 백일홍" = false
    ∧ (∀ target rows, (∀ row ∈ rows, rowAccepts target row = false) →
        findFacilityRow target rows = none) := by
  refine ⟨?_, ?_, by decide, by decide, ?_⟩
  · intro target rows
    induction rows with
    | nil => rfl
    | cons row rest ih =>
      rw [findFacilityRow, List.find?_cons]
      cases h : rowAccepts target row <;> simp [h, ih]
  · intro t c
    rw [nameMatch, Bool.or_eq_true, containsChars_iff, containsChars_iff]
  · intro target rows h
    induction rows with
    | nil => rfl
    | cons row rest ih =>
      rw [findFacilityRow, h row (List.mem_cons_self row rest)]
      exact ih fun r hr => h r (List.mem_cons_of_mem row hr)

/-- Witness for the hypothesis-bearing conjuncts of `facility_matcher_spec` at
concrete inputs. -/
theorem facility_matcher_spec_witness :
    findFacilityRow "연산홍" [["삼나무동"]] = none :=
  facility_matcher_spec.2.2.2.2 "연산홍" [["삼나무동"]] (by decide)

/-! ### Price parser (`_parse_price`, admin_dashboard/app.py)

`price_text.replace(',', '').replace('원', '')` followed by
`re.search(r'(\d+)', ...)`; the match's digits are returned as an int,
otherwise 0. -/

/-- Character cleanup of `_parse_price`: drop every `,` and `원`. -/
def stripPriceChars (s : String) : List Char :=
  s.data.filter (fun c => !(c == ',' || c == '원'))

/-- First maximal digit run of a character list, as `re.search(r'(\d+)', s)`
captures it. -/
def firstDigitRun : List Char → List Char
  | [] => []
  | c :: rest =>
    if c.isDigit then c :: rest.takeWhile Char.isDigit else firstDigitRun rest

/-- The `_parse_price` routine: strip `,` and `원`, then the first digit run as
an integer, or 0 when no digit occurs. -/
def parsePrice (s : String) : ℕ :=
  let t := stripPriceChars s
  if t.any Char.isDigit then digitsToNat (firstDigitRun t) else 0

theorem firstDigitRun_eq (l : List Char) :
    firstDigitRun l = (l.dropWhile (fun c => !c.isDigit)).takeWhile Char.isDigit := by
  induction l with
  | nil => rfl
  | cons c rest ih =>
    by_cases h : c.isDigit = true
    · simp [firstDigitRun, h, List.dropWhile_cons, List.takeWhile_cons, ih]
    · simp only [Bool.not_eq_true] at h
      simp [firstDigitRun, h, List.dropWhile_cons, ih]

/-- C2: the price parser strips commas and the `원` suffix, returns the integer
value of the first digit run of what remains, yields 0 on digit-free input
(including the empty string), and parses "75,000원" to 75000. -/
theorem price_parser_spec :
    (∀ s, parsePrice s =
        if (stripPriceChars s).any Char.isDigit then
          digitsToNat
            (((stripPriceChars s).dropWhile (fun c => !c.isDigit)).takeWhile Char.isDigit)
        else 0)
    ∧ parsePrice "75,000원" = 75000
    ∧ parsePrice "" = 0
    ∧ (∀ s, (∀ c ∈ s.data, c.isDigit = false) → parsePrice s = 0) := by
  refine ⟨?_, by decide, by decide, ?_⟩
  · intro s
    rw [parsePrice, firstDigitRun_eq]
  · intro s h
    rw [parsePrice]
    have : (stripPriceChars s).any Char.isDigit = false := by
      rw [List.any_eq_false]
      intro c hc
      simp [h c (List.mem_of_mem_filter hc)]
    simp [this]

/-- Witness for the hypothesis-bearing conjunct of `price_parser_spec` at a
concrete digit-free input. -/
theorem price_parser_spec_witness : parsePrice "무료원" = 0 :=
  price_parser_spec.2.2.2 "무료원" (by decide)

/-! ### Basic recommendation engine (`test_basic_recommendation.py`)

`BasicRecommendationEngine` caches rows of the accommodations/forests join and
scores them against a query plus optional structured preferences.  Optional
numeric inputs are modelled as `ℕ` with `0` for Python `None`/`0` (both falsy
in every use the code makes of them) and optional strings as `""`.  Float
arithmetic is carried out exactly over `ℚ`. -/

/-- Lowercased character data of a Python string (`str.lower()`). -/
def lowerChars (s : String) : List Char :=
  s.data.map Char.toLower

/-- Accumulator pass behind `str.split()`: split on whitespace runs, dropping
empty words. -/
def splitWsAux : List Char → List Char → List (List Char)
  | [], acc => if acc.isEmpty then [] else [acc.reverse]
  | c :: rest, acc =>
    if c.isWhitespace then
      if acc.isEmpty then splitWsAux rest [] else acc.reverse :: splitWsAux rest []
    else splitWsAux rest (c :: acc)

/-- Python `text.lower().split()` as used by `calculate_text_similarity`. -/
def wordsOf (t : List Char) : List (List Char) :=
  splitWsAux (t.map Char.toLower) []

/-- Jaccard similarity of `calculate_text_similarity`: set intersection over
set union of the lowercased whitespace tokens, with empty-input guards. -/
def textSimilarity (t1 t2 : List Char) : ℚ :=
  if t1.isEmpty || t2.isEmpty then 0
  else
    let w1 := (wordsOf t1).dedup
    let w2 := (wordsOf t2).dedup
    let inter := w1.filter (fun w => w2.contains w)
    let union := (w1 ++ w2).dedup
    if union.isEmpty then 0 else (inter.length : ℚ) / (union.length : ℚ)

/-- Triangular falloff of `calculate_capacity_similarity`, with the 0.5 result
on falsy input. -/
def capacitySimilarity (target actual : ℕ) : ℚ :=
  if target = 0 ∨ actual = 0 then 1/2
  else max 0 (1 - |(target : ℚ) - (actual : ℚ)| / max (target : ℚ) (actual : ℚ))

/-- Triangular falloff of `calculate_price_similarity`, including its dead
`max_price == 0` branch. -/
def priceSimilarity (target actual : ℕ) : ℚ :=
  if target = 0 ∨ actual = 0 then 1/2
  else
    let m := max (target : ℚ) (actual : ℚ)
    if m = 0 then 1 else max 0 (1 - |(target : ℚ) - (actual : ℚ)| / m)

/-- Row of the accommodations cache (`load_accommodations` SELECT columns).
SQL NULL numerics are modelled as 0 and NULL strings as "", which have the
same truthiness the code relies on. -/
structure Accommodation where
  accommodation_id : ℕ
  facility_name : String
  facility_type : String
  capacity_standard : ℕ
  capacity_maximum : ℕ
  area : ℚ
  amenities : String
  price_off_weekday : ℕ
  price_peak_weekend : ℕ
  forest_name : String
  sido : String
  address : String
deriving DecidableEq

/-- Feature text assembled in `search_accommodations`: the truthy entries of
`[facility_name, amenities, facility_type]` joined by single spaces. -/
def accomText (a : Accommodation) : List Char :=
  let parts := ([a.facility_name.data, a.amenities.data, a.facility_type.data]).filter
    (fun p => !p.isEmpty)
  match parts with
  | [] => []
  | p :: ps => ps.foldl (fun acc q => acc ++ ' ' :: q) p

/-- Base string of the location filter test:
`accommodation.get('sido', '').lower() or accommodation.get('forest_name', '').lower()`. -/
def locationTarget (a : Accommodation) : List Char :=
  let s := lowerChars a.sido
  if s.isEmpty then lowerChars a.forest_name else s

/-- Location filter test `location_filter.lower() in (...)`. -/
def locationMatches (loc : String) (a : Accommodation) : Bool :=
  containsChars (lowerChars loc) (locationTarget a)

/-- Accumulation of the weighted sub-scores in `search_accommodations`:
text similarity weighted 0.4, then capacity 0.3 and price 0.2 when their
inputs are present, then the flat 0.1 location bonus. -/
def combineScore (text cap price : ℚ) (hasCap hasPrice hasLocBonus : Bool) : ℚ :=
  text * (4/10)
    + (if hasCap then cap * (3/10) else 0)
    + (if hasPrice then price * (2/10) else 0)
    + (if hasLocBonus then 1/10 else 0)

/-- Score of one accommodation in `search_accommodations` before rounding. -/
def scoreOf (query : String) (targetCapacity targetPrice : ℕ) (loc : String)
    (a : Accommodation) : ℚ :=
  combineScore
    (textSimilarity query.data (accomText a))
    (capacitySimilarity targetCapacity a.capacity_standard)
    (priceSimilarity targetPrice a.price_off_weekday)
    (decide (targetCapacity ≠ 0) && decide (a.capacity_standard ≠ 0))
    (decide (targetPrice ≠ 0) && decide (a.price_off_weekday ≠ 0))
    (decide (loc ≠ "") && locationMatches loc a)

/-- Python `round(q, 3)` over exact rationals (round half to even; the float
and rational computations agree away from representation boundaries, and no
value the claims touch sits on one). -/
def pyRound3 (q : ℚ) : ℚ :=
  ((if q * 1000 - (⌊q * 1000⌋ : ℚ) < 1/2 then ⌊q * 1000⌋
    else if 1/2 < q * 1000 - (⌊q * 1000⌋ : ℚ) then ⌊q * 1000⌋ + 1
    else if ⌊q * 1000⌋ % 2 = 0 then ⌊q * 1000⌋ else ⌊q * 1000⌋ + 1 : ℤ) : ℚ) / 1000

/-- Entry of the list built by `search_accommodations` (the source row plus
the rounded composite score). -/
structure ScoredEntry where
  acc : Accommodation
  similarity_score : ℚ
deriving DecidableEq

/-- Sort order used by `recommendations.sort(key=..., reverse=True)`:
non-increasing `similarity_score`. -/
def scoreOrder (x y : ScoredEntry) : Prop :=
  y.similarity_score ≤ x.similarity_score

instance : DecidableRel scoreOrder := fun x y =>
  inferInstanceAs (Decidable (y.similarity_score ≤ x.similarity_score))

instance : IsTotal ScoredEntry scoreOrder :=
  ⟨fun x y => le_total y.similarity_score x.similarity_score⟩

instance : IsTrans ScoredEntry scoreOrder :=
  ⟨fun _ _ _ h1 h2 => le_trans h2 h1⟩

/-- The `search_accommodations` pipeline: score every cached row, keep those
strictly above the 0.1 threshold with their rounded score, sort by score
descending (stable), return the first `topK`. -/
def searchAccommodations (cache : List Accommodation) (query : String)
    (targetCapacity targetPrice : ℕ) (loc : String) (topK : ℕ) : List ScoredEntry :=
  if cache.isEmpty then []
  else
    let recs := cache.filterMap fun a =>
      let s := scoreOf query targetCapacity targetPrice loc a
      if (1 : ℚ)/10 < s then some ⟨a, pyRound3 s⟩ else none
    (List.insertionSort scoreOrder recs).take topK

theorem capacitySimilarity_eq {t a : ℕ} (ht : t ≠ 0) (ha : a ≠ 0) :
    capacitySimilarity t a =
      max 0 (1 - |(t : ℚ) - (a : ℚ)| / max (t : ℚ) (a : ℚ)) := by
  rw [capacitySimilarity, if_neg]
  rintro (h | h) <;> [exact ht h; exact ha h]

theorem priceSimilarity_eq {t a : ℕ} (ht : t ≠ 0) (ha : a ≠ 0) :
    priceSimilarity t a =
      max 0 (1 - |(t : ℚ) - (a : ℚ)| / max (t : ℚ) (a : ℚ)) := by
  rw [priceSimilarity, if_neg]
  · have hpos : (0 : ℚ) < max (t : ℚ) (a : ℚ) :=
      lt_max_of_lt_left (by exact_mod_cast Nat.pos_of_ne_zero ht)
    simp only []
    rw [if_neg (ne_of_gt hpos)]
  · rintro (h | h) <;> [exact ht h; exact ha h]

/-- C3: the composite score of `search_accommodations` is the weighted sum
0.4·text-similarity + 0.3·capacity-closeness + 0.2·price-closeness + 0.1 flat
location bonus, the capacity and price components entering only when both the
preference and the stored value are present, each closeness being the
triangular falloff `max(0, 1 − |target − actual| / max(target, actual))`. -/
theorem composite_score_formula :
    ∀ (query : String) (tc tp : ℕ) (loc : String) (a : Accommodation),
      scoreOf query tc tp loc a =
        textSimilarity query.data (accomText a) * (4/10)
        + (if tc ≠ 0 ∧ a.capacity_standard ≠ 0 then
            max 0 (1 - |(tc : ℚ) - (a.capacity_standard : ℚ)|
                / max (tc : ℚ) (a.capacity_standard : ℚ)) * (3/10)
          else 0)
        + (if tp ≠ 0 ∧ a.price_off_weekday ≠ 0 then
            max 0 (1 - |(tp : ℚ) - (a.price_off_weekday : ℚ)|
                / max (tp : ℚ) (a.price_off_weekday : ℚ)) * (2/10)
          else 0)
        + (if loc ≠ "" ∧ locationMatches loc a = true then 1/10 else 0) := by
  intro query tc tp loc a
  rw [scoreOf, combineScore]
  congr 1
  · congr 1
    · congr 1
      by_cases hc : tc ≠ 0 ∧ a.capacity_standard ≠ 0
      · rw [if_pos (by simp [hc.1, hc.2]), if_pos hc, capacitySimilarity_eq hc.1 hc.2]
      · rw [if_neg (by simpa using fun h1 h2 => hc ⟨h1, h2⟩), if_neg hc]
    · by_cases hp : tp ≠ 0 ∧ a.price_off_weekday ≠ 0
      · rw [if_pos (by simp [hp.1, hp.2]), if_pos hp, priceSimilarity_eq hp.1 hp.2]
      · rw [if_neg (by simpa using fun h1 h2 => hp ⟨h1, h2⟩), if_neg hp]
  · by_cases hl : loc ≠ "" ∧ locationMatches loc a = true
    · rw [if_pos (by simp [hl.1, hl.2]), if_pos hl]
    · rw [if_neg (by simpa using fun h1 h2 => hl ⟨h1, h2⟩), if_neg hl]

/-- C4: the composite score is monotone in each sub-score separately: raising
text similarity, capacity-closeness, or price-closeness (others fixed) never
lowers the total, and adding the location bonus never lowers it. -/
theorem composite_score_monotone :
    ∀ (t t' c c' p p' : ℚ) (hc hp lb : Bool),
      (t ≤ t' → combineScore t c p hc hp lb ≤ combineScore t' c p hc hp lb)
      ∧ (c ≤ c' → combineScore t c p hc hp lb ≤ combineScore t c' p hc hp lb)
      ∧ (p ≤ p' → combineScore t c p hc hp lb ≤ combineScore t c p' hc hp lb)
      ∧ combineScore t c p hc hp false ≤ combineScore t c p hc hp true := by
  intro t t' c c' p p' hc hp lb
  refine ⟨fun h => ?_, fun h => ?_, fun h => ?_, ?_⟩ <;>
    · unfold combineScore
      cases hc <;> cases hp <;> cases lb <;> simp <;> nlinarith

/-- Witness for `composite_score_monotone`: raising capacity-closeness from
1/4 to 3/4 does not lower the total at concrete values. -/
theorem composite_score_monotone_witness :
    combineScore 0 (1/4) (1/2) true true false
      ≤ combineScore 0 (3/4) (1/2) true true false :=
  (composite_score_monotone 0 0 (1/4) (3/4) (1/2) (1/2) true true false).2.1
    (by norm_num)

theorem le_pyRound3_of_lt {q : ℚ} (h : (1 : ℚ)/10 < q) : (1 : ℚ)/10 ≤ pyRound3 q := by
  have hf : (100 : ℤ) ≤ ⌊q * 1000⌋ := by
    rw [Int.le_floor]
    push_cast
    nlinarith
  rw [pyRound3]
  have hn : (100 : ℤ) ≤
      (if q * 1000 - (⌊q * 1000⌋ : ℚ) < 1/2 then ⌊q * 1000⌋
        else if 1/2 < q * 1000 - (⌊q * 1000⌋ : ℚ) then ⌊q * 1000⌋ + 1
        else if ⌊q * 1000⌋ % 2 = 0 then ⌊q * 1000⌋ else ⌊q * 1000⌋ + 1) := by
    split_ifs <;> omega
  have : (100 : ℚ) ≤
      ((if q * 1000 - (⌊q * 1000⌋ : ℚ) < 1/2 then ⌊q * 1000⌋
        else if 1/2 < q * 1000 - (⌊q * 1000⌋ : ℚ) then ⌊q * 1000⌋ + 1
        else if ⌊q * 1000⌋ % 2 = 0 then ⌊q * 1000⌋ else ⌊q * 1000⌋ + 1 : ℤ) : ℚ) := by
    exact_mod_cast hn
  linarith

/-- C10 (amended): every `search_accommodations` result has length at most
`topK`, consists exactly of cached rows whose unrounded composite score
strictly exceeds 0.1 carrying a rounded `similarity_score` that is therefore
at least 0.1, and is sorted by non-increasing `similarity_score`. -/
theorem search_result_invariants :
    ∀ (cache : List Accommodation) (query : String) (tc tp : ℕ) (loc : String)
      (topK : ℕ),
      (searchAccommodations cache query tc tp loc topK).length ≤ topK
      ∧ (∀ e ∈ searchAccommodations cache query tc tp loc topK,
          (1 : ℚ)/10 ≤ e.similarity_score
          ∧ ∃ a ∈ cache, (1 : ℚ)/10 < scoreOf query tc tp loc a
              ∧ e = ⟨a, pyRound3 (scoreOf query tc tp loc a)⟩)
      ∧ List.Sorted scoreOrder (searchAccommodations cache query tc tp loc topK) := by
  intro cache query tc tp loc topK
  rw [searchAccommodations]
  by_cases hc : cache.isEmpty
  · simp [hc]
  · rw [if_neg hc]
    refine ⟨?_, ?_, ?_⟩
    · rw [List.length_take]
      exact min_le_left _ _
    · intro e he
      have he2 := List.mem_of_mem_take he
      rw [List.mem_insertionSort] at he2
      rcases List.mem_filterMap.mp he2 with ⟨a, ha, hsome⟩
      by_cases hgt : (1 : ℚ)/10 < scoreOf query tc tp loc a
      · rw [if_pos hgt] at hsome
        injection hsome with hsome
        subst hsome
        exact ⟨le_pyRound3_of_lt hgt, a, ha, hgt, rfl⟩
      · rw [if_neg hgt] at hsome
        exact absurd hsome (Option.noConfusion)
    · exact (List.sorted_insertionSort scoreOrder _).sublist (List.take_sublist _ _)

theorem pyRound3_eq_of_floor {q : ℚ} {n : ℤ} (h : ⌊q * 1000⌋ = n)
    (h2 : q * 1000 - (n : ℚ) < 1/2) : pyRound3 q = (n : ℚ) / 1000 := by
  rw [pyRound3, h, if_pos h2]

/-- Accommodation used to realize the concrete-input witnesses below. -/
def demoAcc : Accommodation :=
  ⟨7, "숲속의집", "", 4, 4, 0, "", 0, 0, "자연휴양림", "", ""⟩

theorem scoreOf_demoAcc : scoreOf "" 4 0 "" demoAcc = 3/10 := by
  have h1 : textSimilarity "".data (accomText demoAcc) = 0 := rfl
  rw [scoreOf, h1]
  rw [show capacitySimilarity 4 demoAcc.capacity_standard = 1 by
    rw [demoAcc, capacitySimilarity, if_neg (by simp)]; norm_num]
  rw [combineScore]
  norm_num [demoAcc]

theorem searchAccommodations_demo :
    searchAccommodations [demoAcc] "" 4 0 "" 5 = [⟨demoAcc, 3/10⟩] := by
  rw [searchAccommodations, if_neg (by simp)]
  simp only [List.filterMap_cons, List.filterMap_nil, scoreOf_demoAcc]
  rw [if_pos (by norm_num : (1 : ℚ)/10 < 3/10)]
  have hr : pyRound3 (3/10) = 3/10 := by
    have hf : ⌊(3/10 : ℚ) * 1000⌋ = 300 := by
      rw [show (3/10 : ℚ) * 1000 = ((300 : ℤ) : ℚ) by norm_num, Int.floor_intCast]
    rw [pyRound3_eq_of_floor hf (by push_cast; norm_num)]
    norm_num
  rw [hr]
  rfl

/-- Witness for `search_result_invariants`: a concrete one-element cache whose
single returned entry carries score 3/10, which is at least 1/10. -/
theorem search_result_invariants_witness :
    (1 : ℚ)/10 ≤ (ScoredEntry.mk demoAcc (3/10)).similarity_score :=
  ((search_result_invariants [demoAcc] "" 4 0 "" 5).2.1
    (ScoredEntry.mk demoAcc (3/10))
    (by rw [searchAccommodations_demo]; exact List.mem_singleton_self _)).1

/-- Accommodation whose composite score lands strictly between 0.1 and 0.1005,
so that the stored rounded score is exactly 0.1. -/
def borderAcc : Accommodation :=
  ⟨1, "연립동", "", 334, 334, 0, "", 0, 0, "휴양림", "", ""⟩

theorem scoreOf_borderAcc : scoreOf "" 1000 0 "" borderAcc = 501/5000 := by
  have h1 : textSimilarity "".data (accomText borderAcc) = 0 := rfl
  rw [scoreOf, h1]
  rw [show capacitySimilarity 1000 borderAcc.capacity_standard = 167/500 by
    rw [capacitySimilarity, if_neg (by simp [borderAcc])]
    simp only [borderAcc]
    push_cast
    rw [show |(1000 : ℚ) - 334| = 666 by
      rw [abs_of_pos (by norm_num : (0 : ℚ) < 1000 - 334)]; norm_num]
    rw [max_def, max_def]
    norm_num]
  rw [combineScore]
  norm_num [borderAcc]

theorem searchAccommodations_border :
    (searchAccommodations [borderAcc] "" 1000 0 "" 5) = [⟨borderAcc, 1/10⟩] := by
  rw [searchAccommodations, if_neg (by simp)]
  simp only [List.filterMap_cons, List.filterMap_nil, scoreOf_borderAcc]
  rw [if_pos (by norm_num : (1 : ℚ)/10 < 501/5000)]
  have hr : pyRound3 (501/5000) = 1/10 := by
    have hf : ⌊(501/5000 : ℚ) * 1000⌋ = 100 := by
      rw [show (501/5000 : ℚ) * 1000 = 501/5 by norm_num, Int.floor_eq_iff]
      norm_num
    rw [pyRound3_eq_of_floor hf (by push_cast; norm_num)]
    norm_num
  rw [hr]
  rfl

/-- C10 counterexample: with capacity preference 1000 against stored capacity
334 the unrounded score is 501/5000 > 0.1, the row is returned, but its
rounded `similarity_score` equals exactly 0.1, which is not strictly greater
than 0.1. -/
theorem search_threshold_cex :
    (searchAccommodations [borderAcc] "" 1000 0 "" 5).map
        (fun e => e.similarity_score) = [1/10]
    ∧ ¬ (∀ e ∈ searchAccommodations [borderAcc] "" 1000 0 "" 5,
          (1 : ℚ)/10 < e.similarity_score) := by
  rw [searchAccommodations_border]
  constructor
  · rfl
  · intro h
    have := h ⟨borderAcc, 1/10⟩ (List.mem_singleton_self _)
    exact absurd this (by norm_num)

/-! ### Trending fallback (`get_trending_accommodations`, `get_recommendations`) -/

/-- Popularity heuristic of `get_trending_accommodations`: facility-type
weight, amenity-count weight capped at 0.3, and a flat bonus for capacities
between 4 and 8. -/
def popularityScore (a : Accommodation) : ℚ :=
  (if containsChars "펜션".data (lowerChars a.facility_type)
      || containsChars "콘도".data (lowerChars a.facility_type) then 3/10
    else if containsChars "초가".data (lowerChars a.facility_type)
      || containsChars "통나무".data (lowerChars a.facility_type) then 4/10
    else if containsChars "휴양관".data (lowerChars a.facility_type) then 2/10
    else 0)
  + (if a.amenities ≠ "" then
      min ((((a.amenities.data.filter (fun c => c == ';')).length + 1 : ℕ) : ℚ) * (1/20))
        (3/10)
    else 0)
  + (if 4 ≤ a.capacity_standard ∧ a.capacity_standard ≤ 8 then 2/10 else 0)

/-- Entry of the trending list (source row plus rounded popularity score). -/
structure TrendingEntry where
  acc : Accommodation
  popularity_score : ℚ
deriving DecidableEq

/-- Sort order of the trending list: non-increasing `popularity_score`. -/
def trendOrder (x y : TrendingEntry) : Prop :=
  y.popularity_score ≤ x.popularity_score

instance : DecidableRel trendOrder := fun x y =>
  inferInstanceAs (Decidable (y.popularity_score ≤ x.popularity_score))

instance : IsTotal TrendingEntry trendOrder :=
  ⟨fun x y => le_total y.popularity_score x.popularity_score⟩

instance : IsTrans TrendingEntry trendOrder :=
  ⟨fun _ _ _ h1 h2 => le_trans h2 h1⟩

/-- The `get_trending_accommodations` pipeline: keep rows whose popularity
score strictly exceeds 0.1, sort descending, return the first `topK`. -/
def getTrendingAccommodations (cache : List Accommodation) (topK : ℕ) :
    List TrendingEntry :=
  (List.insertionSort trendOrder
    (cache.filterMap fun a =>
      if (1 : ℚ)/10 < popularityScore a then some ⟨a, pyRound3 (popularityScore a)⟩
      else none)).take topK

/-- Match attempt of `re.search(r'(\d+)(?:인|명|인용)', query)` at one start
position: a digit run immediately followed by `인` or `명` (the `인용`
alternative is shadowed by its prefix `인`). -/
def capacityRunAt (l : List Char) : Option ℕ :=
  match l with
  | [] => none
  | c :: _ =>
    if c.isDigit then
      match l.dropWhile Char.isDigit with
      | d :: _ =>
        if d == '인' || d == '명' then some (digitsToNat (l.takeWhile Char.isDigit))
        else none
      | [] => none
    else none

/-- Left-to-right scan of `re.search` over start positions. -/
def extractCapacity : List Char → Option ℕ
  | [] => none
  | c :: rest =>
    match capacityRunAt (c :: rest) with
    | some n => some n
    | none => extractCapacity rest

/-- Structured preferences of `get_recommendations`; absent keys are the falsy
defaults 0 / "". -/
structure Preferences where
  capacity : ℕ
  price : ℕ
  location : String
  top_k : ℕ
deriving DecidableEq

/-- Capacity actually passed to the search: the preference when truthy, else
the count regex-extracted from a non-empty query, else none (0). -/
def effectiveCapacity (query : String) (p : Preferences) : ℕ :=
  if p.capacity ≠ 0 then p.capacity
  else if query ≠ "" then (extractCapacity query.data).getD 0
  else 0

/-- The `get_recommendations` method: run the similarity search; when it comes
back empty, substitute the trending list (top 5), exposing the popularity
score as `similarity_score`. -/
def getRecommendations (cache : List Accommodation) (query : String)
    (p : Preferences) : List ScoredEntry :=
  if (searchAccommodations cache query (effectiveCapacity query p) p.price p.location
      p.top_k).isEmpty then
    (getTrendingAccommodations cache 5).map (fun t => ⟨t.acc, t.popularity_score⟩)
  else
    searchAccommodations cache query (effectiveCapacity query p) p.price p.location p.top_k

/-- C5 (amended): when the similarity search returns no result,
`get_recommendations` returns the separate trending ranking (popularity
heuristic, not blended with similarity); the trending list is non-empty
whenever the cache holds a row whose popularity score exceeds the 0.1
threshold (not merely whenever the cache is non-empty). -/
theorem trending_fallback :
    (∀ cache query p,
      searchAccommodations cache query (effectiveCapacity query p) p.price p.location
          p.top_k = [] →
        getRecommendations cache query p
          = (getTrendingAccommodations cache 5).map (fun t => ⟨t.acc, t.popularity_score⟩))
    ∧ (∀ (cache : List Accommodation) (a : Accommodation), a ∈ cache →
        (1 : ℚ)/10 < popularityScore a → getTrendingAccommodations cache 5 ≠ []) := by
  constructor
  · intro cache query p h
    rw [getRecommendations, if_pos (by rw [h]; rfl)]
  · intro cache a ha hpop hnil
    rw [getTrendingAccommodations] at hnil
    rcases (List.take_eq_nil_iff).mp hnil with h5 | hsort
    · exact absurd h5 (by norm_num)
    · have hmem : (⟨a, pyRound3 (popularityScore a)⟩ : TrendingEntry) ∈
          cache.filterMap fun a =>
            if (1 : ℚ)/10 < popularityScore a then
              some ⟨a, pyRound3 (popularityScore a)⟩
            else none :=
        List.mem_filterMap.mpr ⟨a, ha, by rw [if_pos hpop]⟩
      rw [← List.mem_insertionSort trendOrder] at hmem
      rw [hsort] at hmem
      exact absurd hmem (List.not_mem_nil _)

/-- Accommodation with a popularity score above the trending threshold (pension
type plus family-sized capacity). -/
def popAcc : Accommodation :=
  ⟨3, "펜션하우스", "펜션", 5, 5, 0, "", 0, 0, "수목원", "", ""⟩

theorem popularityScore_popAcc : popularityScore popAcc = 1/2 := by
  rw [popularityScore]
  rw [if_pos (by decide), if_neg (by decide), if_pos (by decide)]
  norm_num

/-- Witness for `trending_fallback`: a cache holding `popAcc` produces a
non-empty trending list. -/
theorem trending_fallback_witness : getTrendingAccommodations [popAcc] 5 ≠ [] :=
  trending_fallback.2 [popAcc] popAcc (List.mem_singleton_self _)
    (by rw [popularityScore_popAcc]; norm_num)

/-- Accommodation that scores zero popularity: unrecognized facility type, no
amenities, capacity outside the 4–8 sweet spot. -/
def dullAcc : Accommodation :=
  ⟨2, "민박", "기타", 2, 2, 0, "", 0, 0, "야영장", "", ""⟩

theorem popularityScore_dullAcc : popularityScore dullAcc = 0 := by
  rw [popularityScore]
  rw [if_neg (by decide), if_neg (by decide), if_neg (by decide),
    if_neg (by decide), if_neg (by decide)]
  norm_num

theorem scoreOf_dullAcc : scoreOf "존재하지않는검색어999" 0 0 "" dullAcc = 0 := by
  have h1 : textSimilarity "존재하지않는검색어999".data (accomText dullAcc)
      = ((0 : ℕ) : ℚ) / ((3 : ℕ) : ℚ) := rfl
  rw [scoreOf, h1, combineScore]
  norm_num

theorem searchAccommodations_dullAcc :
    searchAccommodations [dullAcc] "존재하지않는검색어999" 0 0 "" 5 = [] := by
  rw [searchAccommodations, if_neg (by simp)]
  simp only [List.filterMap_cons, List.filterMap_nil, scoreOf_dullAcc]
  rw [if_neg (by norm_num)]
  rfl

/-- C5 counterexample: a non-empty cache whose only row scores zero popularity
yields an empty trending list, so the fallback of `get_recommendations`
returns nothing at all — refuting "non-empty whenever the cache is
non-empty". -/
theorem trending_fallback_cex :
    ([dullAcc] : List Accommodation) ≠ []
    ∧ getTrendingAccommodations [dullAcc] 5 = []
    ∧ searchAccommodations [dullAcc] "존재하지않는검색어999" 0 0 "" 5 = []
    ∧ getRecommendations [dullAcc] "존재하지않는검색어999" ⟨0, 0, "", 5⟩ = [] := by
  have htr : getTrendingAccommodations [dullAcc] 5 = [] := by
    rw [getTrendingAccommodations]
    simp only [List.filterMap_cons, List.filterMap_nil, popularityScore_dullAcc]
    rw [if_neg (by norm_num)]
    rfl
  have hse : searchAccommodations [dullAcc] "존재하지않는검색어999" 0 0 "" 5 = [] :=
    searchAccommodations_dullAcc
  refine ⟨by simp, htr, hse, ?_⟩
  have hcap : effectiveCapacity "존재하지않는검색어999" ⟨0, 0, "", 5⟩ = 0 := by
    rw [effectiveCapacity, if_neg (by decide), if_pos (by decide)]
    decide
  rw [getRecommendations]
  rw [hcap]
  rw [if_pos (by rw [hse]; rfl)]
  rw [htr]
  rfl

/-! ### Persistence (`_save_accommodations_to_db`,
`_update_accommodation_full_details`, admin_dashboard/app.py)

The `accommodations` table is modelled as a list of rows; SQL `UPDATE ...
WHERE forest_id = ? AND facility_name = ?` acts on every row with the key and
`INSERT` appends a fresh row with the next id. -/

/-- Crawled record handed to `_save_accommodations_to_db`. -/
structure AccData where
  forest_id : String
  facility_name : String
  facility_type : String
  standard_capacity : ℕ
  max_capacity : ℕ
  area_sqm : ℚ
  area_pyeong : ℚ
  checkin_time : String
  checkout_time : String
  weekday_offseason : ℕ
  weekend_offseason : ℕ
  weekday_peak : ℕ
  weekend_peak : ℕ
  amenities : String
  usage_notes : String
deriving DecidableEq

/-- Stored row of the `accommodations` table (basic-crawl schema). -/
structure AccRow where
  accommodation_id : ℕ
  forest_id : String
  facility_name : String
  facility_type : String
  standard_capacity : ℕ
  max_capacity : ℕ
  area_sqm : ℚ
  area_pyeong : ℚ
  checkin_time : String
  checkout_time : String
  weekday_offseason : ℕ
  weekend_offseason : ℕ
  weekday_peak : ℕ
  weekend_peak : ℕ
  amenities : String
  usage_notes : String
deriving DecidableEq

/-- Natural key of a crawled record. -/
def accKey (a : AccData) : String × String :=
  (a.forest_id, a.facility_name)

/-- Natural key of a stored row. -/
def rowKey (r : AccRow) : String × String :=
  (r.forest_id, r.facility_name)

/-- The UPDATE branch of `_save_accommodations_to_db`: every listed column is
overwritten with the incoming value, empty or not; the id and key survive. -/
def applyBasicUpdate (a : AccData) (r : AccRow) : AccRow :=
  { r with
    facility_type := a.facility_type
    standard_capacity := a.standard_capacity
    max_capacity := a.max_capacity
    area_sqm := a.area_sqm
    area_pyeong := a.area_pyeong
    checkin_time := a.checkin_time
    checkout_time := a.checkout_time
    weekday_offseason := a.weekday_offseason
    weekend_offseason := a.weekend_offseason
    weekday_peak := a.weekday_peak
    weekend_peak := a.weekend_peak
    amenities := a.amenities
    usage_notes := a.usage_notes }

/-- The INSERT branch: a fresh row carrying all incoming fields. -/
def insertRow (a : AccData) (newId : ℕ) : AccRow :=
  ⟨newId, a.forest_id, a.facility_name, a.facility_type, a.standard_capacity,
    a.max_capacity, a.area_sqm, a.area_pyeong, a.checkin_time, a.checkout_time,
    a.weekday_offseason, a.weekend_offseason, a.weekday_peak, a.weekend_peak,
    a.amenities, a.usage_notes⟩

/-- Fresh id for an inserted row (AUTOINCREMENT model). -/
def nextId (db : List AccRow) : ℕ :=
  db.foldr (fun r m => max r.accommodation_id m) 0 + 1

/-- One iteration of the save loop: SELECT by key, then UPDATE when a row
exists, otherwise INSERT. -/
def upsertAccommodation (db : List AccRow) (a : AccData) : List AccRow :=
  if db.any (fun r => decide (rowKey r = accKey a)) then
    db.map (fun r => if rowKey r = accKey a then applyBasicUpdate a r else r)
  else db ++ [insertRow a (nextId db)]

/-- `_save_accommodations_to_db`: the loop over all crawled records. -/
def saveAccommodationsToDb (db : List AccRow) (accs : List AccData) : List AccRow :=
  accs.foldl upsertAccommodation db

/-- Number of stored rows carrying a given natural key. -/
def countKey (db : List AccRow) (k : String × String) : ℕ :=
  (db.filter (fun r => decide (rowKey r = k))).length

/-- Row of the detail-crawl schema touched by
`_update_accommodation_full_details`. -/
structure FullRow where
  accommodation_id : ℕ
  price_off_weekday : ℕ
  price_off_weekend : ℕ
  price_peak_weekday : ℕ
  price_peak_weekend : ℕ
  amenities : String
  usage_info : String
  checkin_time : String
deriving DecidableEq

/-- Detail-crawl payload: prices carry `None` when the popup did not yield
them (`is not None` guards), the text fields carry "" when absent (truthiness
guards). -/
structure DetailData where
  price_off_weekday : Option ℕ
  price_off_weekend : Option ℕ
  price_peak_weekday : Option ℕ
  price_peak_weekend : Option ℕ
  amenities : String
  usage_info : String
  checkin_time : String
deriving DecidableEq

/-- `_update_accommodation_full_details`: each column joins the UPDATE only
when its incoming value is present/non-empty; everything else is untouched. -/
def updateAccommodationFullDetails (r : FullRow) (d : DetailData) : FullRow :=
  { r with
    price_off_weekday := d.price_off_weekday.getD r.price_off_weekday
    price_off_weekend := d.price_off_weekend.getD r.price_off_weekend
    price_peak_weekday := d.price_peak_weekday.getD r.price_peak_weekday
    price_peak_weekend := d.price_peak_weekend.getD r.price_peak_weekend
    amenities := if d.amenities ≠ "" then d.amenities else r.amenities
    usage_info := if d.usage_info ≠ "" then d.usage_info else r.usage_info
    checkin_time := if d.checkin_time ≠ "" then d.checkin_time else r.checkin_time }

theorem countKey_map_update (db : List AccRow) (a : AccData) :
    countKey
      (db.map (fun r => if rowKey r = accKey a then applyBasicUpdate a r else r))
      (accKey a) = countKey db (accKey a) := by
  induction db with
  | nil => rfl
  | cons r rest ih =>
    have hkey : rowKey (if rowKey r = accKey a then applyBasicUpdate a r else r)
        = rowKey r := by
      by_cases hr : rowKey r = accKey a
      · rw [if_pos hr]; rfl
      · rw [if_neg hr]
    simp only [List.map_cons, countKey, List.filter_cons, hkey] at *
    by_cases hr : rowKey r = accKey a <;> simp [hr, ih]

theorem countKey_upsert (db : List AccRow) (a : AccData) :
    countKey (upsertAccommodation db a) (accKey a)
      = if countKey db (accKey a) = 0 then 1 else countKey db (accKey a) := by
  rw [upsertAccommodation]
  by_cases h : db.any (fun r => decide (rowKey r = accKey a)) = true
  · rw [if_pos h, countKey_map_update]
    rcases List.any_eq_true.mp h with ⟨r, hr, hp⟩
    have hmem : r ∈ db.filter (fun r => decide (rowKey r = accKey a)) :=
      List.mem_filter.mpr ⟨hr, hp⟩
    have hne : countKey db (accKey a) ≠ 0 := by
      rw [countKey]
      intro h0
      rw [List.length_eq_zero] at h0
      rw [h0] at hmem
      exact absurd hmem (List.not_mem_nil _)
    rw [if_neg hne]
  · rw [if_neg h]
    have h0 : countKey db (accKey a) = 0 := by
      rw [countKey, List.length_eq_zero, List.filter_eq_nil_iff]
      intro r hr
      simp only [List.any_eq_true, not_exists, not_and] at h
      intro hcon
      exact absurd hcon (h r hr)
    rw [h0, if_pos rfl, countKey, List.filter_append]
    have h1 : db.filter (fun r => decide (rowKey r = accKey a)) = [] := by
      rw [← List.length_eq_zero, ← countKey, h0]
    rw [h1]
    simp [rowKey, insertRow, accKey]

/-- C6 (amended): the save path upserts by the natural key
(forest_id, facility_name) — crawling the same key twice leaves exactly one
row — and the detail-update path modifies a field only when the incoming
value is present/non-empty, leaving the rest untouched; the basic-crawl save
itself, however, overwrites every data column unconditionally. -/
theorem upsert_key_stable :
    (∀ db a, countKey (upsertAccommodation db a) (accKey a)
      = if countKey db (accKey a) = 0 then 1 else countKey db (accKey a))
    ∧ (∀ db (a b : AccData), accKey b = accKey a → countKey db (accKey a) = 0 →
        countKey (saveAccommodationsToDb db [a, b]) (accKey a) = 1)
    ∧ (∀ r d, d.amenities = "" →
        (updateAccommodationFullDetails r d).amenities = r.amenities)
    ∧ (∀ r d, d.amenities ≠ "" →
        (updateAccommodationFullDetails r d).amenities = d.amenities)
    ∧ (∀ r d, d.price_off_weekday = none →
        (updateAccommodationFullDetails r d).price_off_weekday = r.price_off_weekday)
    ∧ (∀ r d v, d.price_off_weekday = some v →
        (updateAccommodationFullDetails r d).price_off_weekday = v)
    ∧ (∀ r d, (updateAccommodationFullDetails r d).accommodation_id
        = r.accommodation_id) := by
  refine ⟨countKey_upsert, ?_, ?_, ?_, ?_, ?_, fun r d => rfl⟩
  · intro db a b hab h0
    have h1 : saveAccommodationsToDb db [a, b]
        = upsertAccommodation (upsertAccommodation db a) b := rfl
    rw [h1, ← hab, countKey_upsert, hab]
    rw [countKey_upsert, h0, if_pos rfl]
    norm_num
  · intro r d h
    rw [updateAccommodationFullDetails]
    simp [h]
  · intro r d h
    rw [updateAccommodationFullDetails]
    simp [h]
  · intro r d h
    rw [updateAccommodationFullDetails]
    simp [h]
  · intro r d v h
    rw [updateAccommodationFullDetails]
    simp [h]

/-- Stored row holding non-empty detail data. -/
def richRow : AccRow :=
  ⟨1, "jeolmul", "A동", "펜션", 4, 4, 0, 0, "15:00", "11:00",
    50000, 65000, 75000, 90000, "TV;냉장고", "비고"⟩

/-- Basic-crawl record for the same key; the basic crawl always carries empty
amenities and usage notes. -/
def emptyAmenData : AccData :=
  ⟨"jeolmul", "A동", "휴양관", 4, 4, 0, 0, "15:00", "11:00",
    50000, 65000, 75000, 90000, "", ""⟩

/-- C6 counterexample: re-saving the same key through the basic-crawl path
overwrites the stored non-empty `amenities` with the incoming empty string,
refuting "fields are modified only for non-empty incoming values". -/
theorem upsert_overwrite_cex :
    richRow.amenities = "TV;냉장고"
    ∧ emptyAmenData.amenities = ""
    ∧ (upsertAccommodation [richRow] emptyAmenData).map (fun r => r.amenities)
      = [""] := by
  refine ⟨rfl, rfl, ?_⟩
  decide

/-- Witness for `upsert_key_stable`: saving one record twice into an empty
table leaves exactly one row for its key. -/
theorem upsert_key_stable_witness :
    countKey (saveAccommodationsToDb [] [emptyAmenData, emptyAmenData])
      (accKey emptyAmenData) = 1 :=
  upsert_key_stable.2.1 [] emptyAmenData emptyAmenData rfl (by decide)

/-! ### Price-table scan (`_extract_price_info_from_popup`,
admin_dashboard/app.py)

Each table row carries an optional `th` header text and an optional `td`
value text; the scan threads a `current_season` string (initially "") through
the rows, header first, value cell second. -/

/-- One `tr` of the price table: first `th` text and first `td` text, when
present. -/
structure PriceRow where
  header : Option String
  cell : Option String
deriving DecidableEq

/-- Accumulated price fields of the scan (`data` dict keys). -/
structure PriceData where
  price_off_weekday : Option ℕ
  price_off_weekend : Option ℕ
  price_peak_weekday : Option ℕ
  price_peak_weekend : Option ℕ
deriving DecidableEq

/-- Empty `data` dict at the start of the scan. -/
def emptyPriceData : PriceData :=
  ⟨none, none, none, none⟩

/-- Season keyword carried by a header row: `비수기` → "off", else `성수기` →
"peak", else nothing. -/
def seasonKeyword (row : PriceRow) : Option String :=
  match row.header with
  | none => none
  | some h =>
    if containsChars "비수기".data h.data then some "off"
    else if containsChars "성수기".data h.data then some "peak"
    else none

/-- Header half of one loop iteration: `current_season` is reassigned on a
season keyword and otherwise kept. -/
def updSeason (s : String) (row : PriceRow) : String :=
  match row.header with
  | none => s
  | some h =>
    if containsChars "비수기".data h.data then "off"
    else if containsChars "성수기".data h.data then "peak"
    else s

/-- Value-cell half of one loop iteration: a weekday/weekend marker in the
cell text stores the parsed price into the field selected by the current
season; any other season value stores nothing. -/
def applyCell (s : String) (row : PriceRow) (d : PriceData) : PriceData :=
  match row.cell with
  | none => d
  | some c =>
    if containsChars "평일요금".data c.data then
      if s = "off" then { d with price_off_weekday := some (parsePrice c) }
      else if s = "peak" then { d with price_peak_weekday := some (parsePrice c) }
      else d
    else if containsChars "주말요금".data c.data then
      if s = "off" then { d with price_off_weekend := some (parsePrice c) }
      else if s = "peak" then { d with price_peak_weekend := some (parsePrice c) }
      else d
    else d

/-- The row loop of `_extract_price_info_from_popup`. -/
def scanPriceRows (s : String) (d : PriceData) : List PriceRow → PriceData
  | [] => d
  | r :: rest => scanPriceRows (updSeason s r) (applyCell (updSeason s r) r d) rest

/-- Whole-table extraction: scan from empty season and empty data. -/
def extractPriceInfo (rows : List PriceRow) : PriceData :=
  scanPriceRows "" emptyPriceData rows

theorem updSeason_eq (s : String) (row : PriceRow) :
    updSeason s row = (seasonKeyword row).getD s := by
  cases hr : row.header with
  | none => simp [updSeason, seasonKeyword, hr]
  | some h =>
    simp only [updSeason, seasonKeyword, hr]
    split_ifs <;> rfl

/-- C7: the price scan is stateful in document order — splitting the row list
anywhere, the remainder is scanned with the season accumulated over the
preceding rows, and that accumulated season is exactly the keyword of the
nearest preceding season-header row (persisting until the next one); a value
cell with the weekday marker `평일요금` (resp. the weekend marker `주말요금`)
fills the price field selected by the pair (current season, weekday/weekend);
before any season header the season is still "" and a price row populates no
field. -/
theorem price_scan_stateful :
    (∀ s rows, List.foldl updSeason s rows
      = ((rows.reverse.findSome? seasonKeyword).getD s))
    ∧ (∀ s d r1 r2, scanPriceRows s d (r1 ++ r2)
      = scanPriceRows (List.foldl updSeason s r1) (scanPriceRows s d r1) r2)
    ∧ (∀ rows, extractPriceInfo rows
      = scanPriceRows "" emptyPriceData rows)
    ∧ (∀ r d, applyCell "" r d = d)
    ∧ (∀ s c d, containsChars "평일요금".data c.data = true →
        applyCell s ⟨none, some c⟩ d =
          (if s = "off" then { d with price_off_weekday := some (parsePrice c) }
            else if s = "peak" then { d with price_peak_weekday := some (parsePrice c) }
            else d))
    ∧ (∀ s c d, containsChars "평일요금".data c.data = false →
        containsChars "주말요금".data c.data = true →
        applyCell s ⟨none, some c⟩ d =
          (if s = "off" then { d with price_off_weekend := some (parsePrice c) }
            else if s = "peak" then { d with price_peak_weekend := some (parsePrice c) }
            else d)) := by
  refine ⟨?_, ?_, fun rows => rfl, ?_, ?_, ?_⟩
  · intro s rows
    induction rows generalizing s with
    | nil => rfl
    | cons r rest ih =>
      rw [List.foldl_cons, ih, List.reverse_cons, List.findSome?_append]
      rw [updSeason_eq]
      cases hrest : rest.reverse.findSome? seasonKeyword with
      | some k => rfl
      | none =>
        cases hk : seasonKeyword r with
        | some k => simp [List.findSome?_cons, hk]
        | none => simp [List.findSome?_cons, hk]
  · intro s d r1 r2
    induction r1 generalizing s d with
    | nil => rfl
    | cons r rest ih =>
      rw [List.cons_append, scanPriceRows, ih, List.foldl_cons, scanPriceRows]
  · intro r d
    cases hc : r.cell with
    | none => simp [applyCell, hc]
    | some c =>
      simp only [applyCell, hc]
      by_cases h1 : containsChars "평일요금".data c.data = true
      · rw [if_pos h1, if_neg (by decide : ¬("" = "off")),
          if_neg (by decide : ¬("" = "peak"))]
      · rw [if_neg h1]
        by_cases h2 : containsChars "주말요금".data c.data = true
        · rw [if_pos h2, if_neg (by decide : ¬("" = "off")),
            if_neg (by decide : ¬("" = "peak"))]
        · rw [if_neg h2]
  · intro s c d h
    simp only [applyCell]
    rw [if_pos h]
  · intro s c d h1 h2
    have hne : ¬(containsChars "평일요금".data c.data = true) := by simp [h1]
    simp only [applyCell]
    rw [if_neg hne, if_pos h2]

/-- Witness for `price_scan_stateful`: a weekday-marker cell under the "off"
season fills `price_off_weekday` with the parsed price. -/
theorem price_scan_stateful_witness :
    applyCell "off" ⟨none, some "평일요금 75,000원"⟩ emptyPriceData =
      (if "off" = "off" then
        { emptyPriceData with price_off_weekday := some (parsePrice "평일요금 75,000원") }
       else if "off" = "peak" then
        { emptyPriceData with price_peak_weekday := some (parsePrice "평일요금 75,000원") }
       else emptyPriceData) :=
  price_scan_stateful.2.2.2.2.1 "off" "평일요금 75,000원" emptyPriceData (by decide)

/-! ### Crawl API routes (`crawl_basic_data`, `crawl_detailed_data` in
admin_dashboard/app.py; `api_crawl_detailed` in integrated_app.py)

Each route body sits in `try: ... except Exception as e: return jsonify(...)`.
Code that may raise is modelled as `Except String`: request parsing and the
orchestrator call; the handler itself is a total function into a JSON payload
plus an HTTP status. -/

/-- Dictionary returned by an orchestrator call: optional `error` key, plus
status fields. -/
structure CrawlResult where
  error : Option String
  success : Bool
  message : String
deriving DecidableEq

/-- JSON body sent back by a route. -/
inductive ApiResponse where
  | payload (r : CrawlResult)
  | errPayload (msg : String)
deriving DecidableEq

/-- `POST /api/crawl/basic`: parse the body, demand `forest_id`, run the
orchestrator, and catch every raised error into a 500 JSON payload. -/
def crawlBasicDataRoute (body : Except String (Option String))
    (orch : String → Except String CrawlResult) : ApiResponse × ℕ :=
  match body with
  | .error e => (.errPayload e, 500)
  | .ok none => (.errPayload "forest_id가 필요합니다", 400)
  | .ok (some fid) =>
    match orch fid with
    | .error e => (.errPayload e, 500)
    | .ok r => (.payload r, 200)

/-- `POST /api/crawl/detailed`: parse, demand both ids, run the orchestrator,
turn a result carrying an `error` key into a 500, catch raised errors. -/
def crawlDetailedDataRoute (body : Except String (Option String × Option String))
    (orch : String → String → Except String CrawlResult) : ApiResponse × ℕ :=
  match body with
  | .error e => (.errPayload e, 500)
  | .ok (none, _) => (.errPayload "forest_id와 accommodation_id가 필요합니다", 400)
  | .ok (some _, none) => (.errPayload "forest_id와 accommodation_id가 필요합니다", 400)
  | .ok (some fid, some aid) =>
    match orch fid aid with
    | .error e => (.errPayload e, 500)
    | .ok r => if r.error.isSome then (.payload r, 500) else (.payload r, 200)

/-- `POST /admin/api/crawl/detailed` of the integrated app: same shape, with
the failure message wrapped into a fresh error payload. -/
def apiCrawlDetailedRoute (body : Except String (Option String × Option String))
    (orch : String → String → Except String CrawlResult) : ApiResponse × ℕ :=
  match body with
  | .error e => (.errPayload e, 500)
  | .ok (none, _) => (.errPayload "forest_id와 accommodation_id가 필요합니다.", 400)
  | .ok (some _, none) => (.errPayload "forest_id와 accommodation_id가 필요합니다.", 400)
  | .ok (some fid, some aid) =>
    match orch fid aid with
    | .error e => (.errPayload e, 500)
    | .ok r => if r.error.isSome then (.errPayload r.message, 500) else (.payload r, 200)

/-- C8: no crawl route lets a failure propagate — every handler is a total
function whose status is always one of 200/400/500, and a failure raised
inside the orchestrator call is caught and turned into a JSON error payload
with status 500. -/
theorem crawl_routes_no_propagation :
    (∀ b o, (crawlBasicDataRoute b o).2 = 200 ∨ (crawlBasicDataRoute b o).2 = 400
      ∨ (crawlBasicDataRoute b o).2 = 500)
    ∧ (∀ o fid e, o fid = .error e →
        crawlBasicDataRoute (.ok (some fid)) o = (.errPayload e, 500))
    ∧ (∀ b o, (crawlDetailedDataRoute b o).2 = 200 ∨ (crawlDetailedDataRoute b o).2 = 400
      ∨ (crawlDetailedDataRoute b o).2 = 500)
    ∧ (∀ o fid aid e, o fid aid = .error e →
        crawlDetailedDataRoute (.ok (some fid, some aid)) o = (.errPayload e, 500))
    ∧ (∀ b o, (apiCrawlDetailedRoute b o).2 = 200 ∨ (apiCrawlDetailedRoute b o).2 = 400
      ∨ (apiCrawlDetailedRoute b o).2 = 500)
    ∧ (∀ o fid aid e, o fid aid = .error e →
        apiCrawlDetailedRoute (.ok (some fid, some aid)) o
          = (.errPayload e, 500)) := by
  refine ⟨?_, ?_, ?_, ?_, ?_, ?_⟩
  · rintro (e | _ | fid) o
    · right; right; rfl
    · right; left; rfl
    · rw [crawlBasicDataRoute]
      cases o fid with
      | error e => right; right; rfl
      | ok r => left; rfl
  · intro o fid e h
    rw [crawlBasicDataRoute, h]
  · rintro (e | ⟨f, a⟩) o
    · right; right; rfl
    · rcases f with _ | fid
      · right; left; rfl
      · rcases a with _ | aid
        · right; left; rfl
        · rw [crawlDetailedDataRoute]
          cases o fid aid with
          | error e => right; right; rfl
          | ok r =>
            by_cases hr : r.error.isSome = true
            · right; right; simp [hr]
            · left; simp [hr]
  · intro o fid aid e h
    rw [crawlDetailedDataRoute, h]
  · rintro (e | ⟨f, a⟩) o
    · right; right; rfl
    · rcases f with _ | fid
      · right; left; rfl
      · rcases a with _ | aid
        · right; left; rfl
        · rw [apiCrawlDetailedRoute]
          cases o fid aid with
          | error e => right; right; rfl
          | ok r =>
            by_cases hr : r.error.isSome = true
            · right; right; simp [hr]
            · left; simp [hr]
  · intro o fid aid e h
    rw [apiCrawlDetailedRoute, h]

/-- Witness for `crawl_routes_no_propagation`: an always-raising orchestrator
is converted into a 500 error payload. -/
theorem crawl_routes_no_propagation_witness :
    crawlBasicDataRoute (.ok (some "012"))
        (fun _ => .error "Timeout 30000ms exceeded")
      = (.errPayload "Timeout 30000ms exceeded", 500) :=
  crawl_routes_no_propagation.2.1 (fun _ => .error "Timeout 30000ms exceeded")
    "012" "Timeout 30000ms exceeded" rfl

/-! ### Basic crawl row parsing (`crawl_basic_accommodation_data`,
admin_dashboard/app.py)

Each scraped table row with at least six cells becomes one accommodation
record; only the weekday off-season price is read from the page, the other
three price points are derived from it by fixed multipliers (the Python
`int(w * 1.3)`, `int(w * 1.5)`, `int(w * 1.8)` on binary floats coincide with
the exact `⌊13w/10⌋`, `⌊3w/2⌋`, `⌊9w/5⌋` throughout the price range). -/

/-- Python nonnegative `int(...)` on an already-stripped string: all digits,
else failure (the surrounding `try` turns failure into 0). -/
def pyIntDigits? (l : List Char) : Option ℕ :=
  if !l.isEmpty && l.all Char.isDigit then some (digitsToNat l) else none

/-- Capacity cell: `int(capacity_text.replace("명", "").strip()) if
capacity_text else 0`, with the `except` fallback to 0. -/
def parseCapacityCell (s : String) : ℕ :=
  if s.isEmpty then 0
  else (pyIntDigits? (pyStrip (s.data.filter (fun c => !(c == '명'))))).getD 0

/-- Decimal-literal reading of Python `float` (the only shape the area cell
carries). -/
def pyDecimal? (l : List Char) : Option ℚ :=
  if (l.takeWhile Char.isDigit).isEmpty then none
  else
    match l.dropWhile Char.isDigit with
    | [] => some (digitsToNat (l.takeWhile Char.isDigit))
    | '.' :: frac =>
      if !frac.isEmpty && frac.all Char.isDigit then
        some ((digitsToNat (l.takeWhile Char.isDigit) : ℚ)
          + (digitsToNat frac : ℚ) / (10 : ℚ) ^ frac.length)
      else none
    | _ => none

/-- Area cell: `float(area_text.split("㎡")[0].strip())` guarded by `"㎡" in
area_text`, `except` fallback 0. -/
def parseAreaCell (s : String) : ℚ :=
  if containsChars "㎡".data s.data then
    (pyDecimal? (pyStrip (s.data.takeWhile (fun c => !(c == '㎡'))))).getD 0
  else 0

/-- Python `round(q, 1)` over exact rationals, as `pyRound3`. -/
def pyRound1 (q : ℚ) : ℚ :=
  ((if q * 10 - (⌊q * 10⌋ : ℚ) < 1/2 then ⌊q * 10⌋
    else if 1/2 < q * 10 - (⌊q * 10⌋ : ℚ) then ⌊q * 10⌋ + 1
    else if ⌊q * 10⌋ % 2 = 0 then ⌊q * 10⌋ else ⌊q * 10⌋ + 1 : ℤ) : ℚ) / 10

/-- Price cell: the digits before the first `원`, commas removed, `except`
fallback 0, guarded by `price_text and "원" in price_text`. -/
def parsePriceCell (s : String) : ℕ :=
  if !s.isEmpty && containsChars "원".data s.data then
    (pyIntDigits? (pyStrip
      ((s.data.takeWhile (fun c => !(c == '원'))).filter (fun c => !(c == ','))))).getD 0
  else 0

/-- Loop body of `crawl_basic_accommodation_data` for one table row: rows with
fewer than six cells are skipped, otherwise the record is assembled from the
six leading cells, with derived prices, the default checkout time and empty
amenities/usage notes. -/
def crawlBasicRow (fid : String) (cells : List String) : Option AccData :=
  match cells with
  | name :: ftype :: capT :: areaT :: checkin :: priceT :: _ =>
    some
      { forest_id := fid
        facility_name := String.mk (pyStrip name.data)
        facility_type := String.mk (pyStrip ftype.data)
        standard_capacity := parseCapacityCell capT
        max_capacity := parseCapacityCell capT
        area_sqm := parseAreaCell areaT
        area_pyeong :=
          if 0 < parseAreaCell areaT then pyRound1 (parseAreaCell areaT / (33/10)) else 0
        checkin_time := String.mk (pyStrip checkin.data)
        checkout_time := "11:00"
        weekday_offseason := parsePriceCell priceT
        weekend_offseason :=
          if 0 < parsePriceCell priceT then 13 * parsePriceCell priceT / 10 else 0
        weekday_peak :=
          if 0 < parsePriceCell priceT then 3 * parsePriceCell priceT / 2 else 0
        weekend_peak :=
          if 0 < parsePriceCell priceT then 9 * parsePriceCell priceT / 5 else 0
        amenities := ""
        usage_notes := "" }
  | _ => none

/-- Whole-table basic crawl: every scraped row through `crawlBasicRow`. -/
def crawlBasicAccommodations (fid : String) (rows : List (List String)) : List AccData :=
  rows.filterMap (crawlBasicRow fid)

/-- C9: the basic crawl never reads weekend or peak prices from the page: in
every produced record, a positive weekday off-season price `w` forces
`weekend_offseason = ⌊1.3·w⌋`, `weekday_peak = ⌊1.5·w⌋` and
`weekend_peak = ⌊1.8·w⌋`, a zero `w` forces all three to 0, and amenities and
usage notes are always stored empty. -/
theorem basic_crawl_derived_prices :
    ∀ (fid : String) (cells : List String) (d : AccData),
      crawlBasicRow fid cells = some d →
        ((0 < d.weekday_offseason →
          d.weekend_offseason = 13 * d.weekday_offseason / 10
          ∧ d.weekday_peak = 3 * d.weekday_offseason / 2
          ∧ d.weekend_peak = 9 * d.weekday_offseason / 5)
        ∧ (d.weekday_offseason = 0 →
          d.weekend_offseason = 0 ∧ d.weekday_peak = 0 ∧ d.weekend_peak = 0)
        ∧ d.amenities = "" ∧ d.usage_notes = "") := by
  intro fid cells d h
  match cells with
  | [] => exact absurd h (by simp [crawlBasicRow])
  | [_] => exact absurd h (by simp [crawlBasicRow])
  | [_, _] => exact absurd h (by simp [crawlBasicRow])
  | [_, _, _] => exact absurd h (by simp [crawlBasicRow])
  | [_, _, _, _] => exact absurd h (by simp [crawlBasicRow])
  | [_, _, _, _, _] => exact absurd h (by simp [crawlBasicRow])
  | name :: ftype :: capT :: areaT :: checkin :: priceT :: _ =>
    rw [crawlBasicRow] at h
    injection h with h
    subst h
    refine ⟨fun hw => ?_, fun hw => ?_, rfl, rfl⟩
    · simp only [] at hw ⊢
      rw [if_pos hw, if_pos hw, if_pos hw]
      exact ⟨rfl, rfl, rfl⟩
    · simp only [] at hw ⊢
      rw [hw] at *
      simp

/-- Witness for `basic_crawl_derived_prices` at a concrete scraped row with
weekday price 50000. -/
theorem basic_crawl_derived_prices_witness :
    ∃ d, crawlBasicRow "012" ["A동", "펜션", "4명", "대형", "15:00", "50,000원"] = some d
      ∧ (0 < d.weekday_offseason →
          d.weekend_offseason = 13 * d.weekday_offseason / 10
          ∧ d.weekday_peak = 3 * d.weekday_offseason / 2
          ∧ d.weekend_peak = 9 * d.weekday_offseason / 5)
      ∧ d.amenities = "" := by
  refine ⟨_, rfl, ?_⟩
  have h := basic_crawl_derived_prices "012"
    ["A동", "펜션", "4명", "대형", "15:00", "50,000원"] _ rfl
  exact ⟨h.1, h.2.2.1⟩

end HyurimBot
